import Mathlib

/-
  Verification of the mongostore session store (package mongostore).

  Shallow embedding of src/mongostore.go: sessions are stored in a document
  collection keyed by a 24-hex-character object id; the client holds an
  encoded token carrying only that id.  External collaborators (the
  securecookie codec, the token transport, the qmgo collection) are modelled
  as explicit data: codec operations are function fields that may fail,
  the collection is an association list inside a `World` state, and
  injectable failure fields model database/transport errors on the next
  call.  All definitions are executable.
-/

namespace Mongostore

/-- Error kinds produced by the store and its collaborators. -/
inductive GoError where
  | errInvalidId
  | errInvalidModified
  | decodeFail (msg : String)
  | encodeFail (msg : String)
  | noDocs
  | dbFail (msg : String)
deriving DecidableEq

/-- A session value: either a time.Time (modelled by an integer instant) or
any other value (modelled by a string).  The store never inspects values
except for the "modified" key, where it type-asserts time.Time. -/
inductive Val where
  | timeVal (t : Int)
  | otherVal (s : String)
deriving DecidableEq

/-- The session values mapping (Go: map[interface{}]interface{}); the claims
only involve string keys, so keys are modelled as strings. -/
abbrev Values := List (String × Val)

/-- Whether a value is a time.Time (the type assertion on line 180). -/
def Val.isTime : Val → Bool
  | .timeVal _ => true
  | .otherVal _ => false

namespace Sessions

/-- gorilla sessions.Options: cookie/session options. -/
structure Options where
  path : String
  maxAge : Int
  domain : String
  secure : Bool
  httpOnly : Bool
deriving DecidableEq

/-- gorilla sessions.Session (the fields the store uses). -/
structure Session where
  name : String
  id : String
  values : Values
  options : Options
  isNew : Bool
deriving DecidableEq

end Sessions

/-- The persisted record (Go struct `Session` in mongostore.go: _id, data,
modified).  The id is the association key in the collection, so the record
itself carries the payload and timestamp. -/
structure Record where
  data : String
  modified : Int
deriving DecidableEq

/-- Hex digit as accepted by Go's encoding/hex. -/
def isHexDigit (c : Char) : Bool :=
  c.isDigit || ('a' ≤ c && c ≤ 'f') || ('A' ≤ c && c ≤ 'F')

/-- primitive.IsValidObjectID: the string is a 24-character hex string. -/
def isValidObjectID (s : String) : Bool :=
  s.length == 24 && s.data.all isHexDigit

/-- primitive.ObjectIDFromHex: parse the hex string; we keep the id as its
hex string, so parsing is validation. -/
def objectIDFromHex (s : String) : Except GoError String :=
  if isValidObjectID s then .ok s else .error (.decodeFail "invalid ObjectID")

/-- Look a key up in an association list. -/
def lookupKey : List (String × α) → String → Option α
  | [], _ => none
  | (k, v) :: rest, key => if k == key then some v else lookupKey rest key

/-- Insert-or-replace by key (the effect of an upsert-by-id). -/
def setKey : List (String × α) → String → α → List (String × α)
  | [], key, v => [(key, v)]
  | (k, w) :: rest, key, v =>
      if k == key then (key, v) :: rest else (k, w) :: setKey rest key v

/-- Remove a key (the effect of a delete-by-id). -/
def eraseKey : List (String × α) → String → List (String × α)
  | [], _ => []
  | (k, w) :: rest, key =>
      if k == key then eraseKey rest key else (k, w) :: eraseKey rest key

/-- The securecookie codec operations the store invokes, as fallible
functions: EncodeMulti on a values mapping, EncodeMulti on an id,
DecodeMulti of a cookie into an id, DecodeMulti of a record payload into a
values mapping. -/
structure Codec where
  encodeMulti : String → Values → Except GoError String
  encodeId : String → String → Except GoError String
  decodeId : String → String → Except GoError String
  decodeData : String → String → Except GoError Values

/-- An inbound request, seen through the token transport: GetToken yields
the token for a session name, or fails (none). -/
structure Request where
  getToken : String → Option String

/-- The mutable outside world: the collection's documents keyed by id hex
string, injectable failures for the next Find / UpsertId / RemoveId call
(modelling network or database errors), and the token writes made to the
response via the transport (name, token, options). -/
structure World where
  docs : List (String × Record)
  findErr : Option GoError
  upsertErr : Option GoError
  removeErr : Option GoError
  tokenWrites : List (String × String × Sessions.Options)
deriving DecidableEq

/-- Token.SetToken on the response: append a write of (name, token, options). -/
def setToken (w : World) (name tok : String) (o : Sessions.Options) : World :=
  { w with tokenWrites := w.tokenWrites ++ [(name, tok, o)] }

/-- coll.Find(bson.M{_id: oID}).One: injected failure, else lookup, absent
is an error (qmgo: no such documents). -/
def findOne (w : World) (id : String) : Except GoError Record :=
  match w.findErr with
  | some e => .error e
  | none =>
      match lookupKey w.docs id with
      | some rec => .ok rec
      | none => .error .noDocs

/-- coll.UpsertId: injected failure, else insert-or-replace by id. -/
def upsertId (w : World) (id : String) (rec : Record) : Except GoError World :=
  match w.upsertErr with
  | some e => .error e
  | none => .ok { w with docs := setKey w.docs id rec }

/-- Modelled from the spec: coll.RemoveId of the qmgo collection collaborator
(not part of this repository's sources) — delete-by-id that tolerates an
already-absent id as success (§4.3, §6); an injected failure models a
database error. -/
def removeId (w : World) (id : String) : Except GoError World :=
  match w.removeErr with
  | some e => .error e
  | none => .ok { w with docs := eraseKey w.docs id }

/-- The MongoStore: codec configuration and default session options.  The
collection handle lives in `World`. -/
structure MongoStore where
  codec : Codec
  options : Sessions.Options

/-- The fresh options record New allocates (lines 83–89): a field-by-field
copy of the store's default options. -/
def copyOptions (o : Sessions.Options) : Sessions.Options :=
  { path := o.path, maxAge := o.maxAge, domain := o.domain,
    secure := o.secure, httpOnly := o.httpOnly }

/-- MongoStore.load (lines 149–171): validate the id, parse it, find the
record, decode the payload into the session's values. -/
def load (m : MongoStore) (w : World) (session : Sessions.Session) :
    Except GoError Sessions.Session :=
  if !(isValidObjectID session.id) then .error .errInvalidId
  else
    match objectIDFromHex session.id with
    | .error e => .error e
    | .ok oID =>
        match findOne w oID with
        | .error e => .error e
        | .ok s =>
            match m.codec.decodeData session.name s.data with
            | .error e => .error e
            | .ok vals => .ok { session with values := vals }

/-- The session New builds before any lookup (lines 82–90): named, empty id,
empty values, options copied from the store defaults, isNew = true. -/
def freshSession (m : MongoStore) (name : String) : Sessions.Session :=
  { name := name, id := "", values := [], options := copyOptions m.options,
    isNew := true }

/-- MongoStore.New (lines 80–104): build a fresh session; if a token is
present, decode it into the id (a decode failure is returned), then load;
a load failure is swallowed (err = nil) and the session stays new. -/
def New (m : MongoStore) (w : World) (r : Request) (name : String) :
    Sessions.Session × Option GoError :=
  let session := freshSession m name
  match r.getToken name with
  | none => (session, none)
  | some cook =>
      match m.codec.decodeId name cook with
      | .error e => (session, some e)
      | .ok sid =>
          let session := { session with id := sid }
          match load m w session with
          | .ok s => ({ s with isNew := false }, none)
          | .error _ => (session, none)

/-- The modified timestamp computation inside upsert (lines 178–186): take
session.Values["modified"] if present — a non-time value is a hard error —
else the current time. -/
def modifiedOf (vals : Values) (now : Int) : Except GoError Int :=
  match lookupKey vals "modified" with
  | some v =>
      match v with
      | .timeVal t => .ok t
      | .otherVal _ => .error .errInvalidModified
  | none => .ok now

/-- MongoStore.upsert (lines 173–211): validate the id, compute modified,
encode the values, parse the id, upsert the record by id. -/
def upsert (m : MongoStore) (w : World) (session : Sessions.Session)
    (now : Int) : Except GoError World :=
  if !(isValidObjectID session.id) then .error .errInvalidId
  else
    match modifiedOf session.values now with
    | .error e => .error e
    | .ok modified =>
        match m.codec.encodeMulti session.name session.values with
        | .error e => .error e
        | .ok encoded =>
            match objectIDFromHex session.id with
            | .error e => .error e
            | .ok oID => upsertId w oID { data := encoded, modified := modified }

/-- MongoStore.delete (lines 213–224): validate the id, parse it, remove the
record by id. -/
def delete (w : World) (session : Sessions.Session) : Except GoError World :=
  if !(isValidObjectID session.id) then .error .errInvalidId
  else
    match objectIDFromHex session.id with
    | .error e => .error e
    | .ok oID => removeId w oID

/-- The id-minting step of Save (lines 117–119): if the session's ID is
empty, assign it a new store-generated object id. -/
def mintId (session : Sessions.Session) (freshId : String) : Sessions.Session :=
  if session.id = "" then { session with id := freshId } else session

/-- MongoStore.Save (lines 107–133).  `now` models time.Now() and `freshId`
models primitive.NewObjectID().Hex().  Returns the world after Save's
side effects, the session (whose ID Save may have assigned), and the error
(none on success).  maxAge < 0: delete the record, fail the save if delete
fails, else clear the token.  Otherwise: mint an id if empty, upsert (fail
on error), encode the id (fail on error), write the token. -/
def Save (m : MongoStore) (w : World) (session : Sessions.Session)
    (now : Int) (freshId : String) : World × Sessions.Session × Option GoError :=
  if session.options.maxAge < 0 then
    match delete w session with
    | .error e => (w, session, some e)
    | .ok w' => (setToken w' session.name "" session.options, session, none)
  else
    let session := mintId session freshId
    match upsert m w session now with
    | .error e => (w, session, some e)
    | .ok w' =>
        match m.codec.encodeId session.name session.id with
        | .error e => (w', session, some e)
        | .ok encoded => (setToken w' session.name encoded session.options, session, none)

/-- Go int32 conversion: truncate to the low 32 bits, two's complement. -/
def int32cast (n : Int) : Int := (n + 2 ^ 31) % 2 ^ 32 - 2 ^ 31

/-- Go int64 arithmetic: wrap to the low 64 bits, two's complement. -/
def int64cast (n : Int) : Int := (n + 2 ^ 63) % 2 ^ 64 - 2 ^ 63

/-- time.Second, in nanoseconds (time.Duration counts nanoseconds). -/
def nanosPerSecond : Int := 1000000000

/-- The TTL index request built by NewMongoStore when ensureTTL is true
(lines 54–62): field name, ExpireAfterSeconds, Sparse, Unique. -/
structure IndexModel where
  key : String
  expireAfterSeconds : Int
  sparse : Bool
  unique : Bool
deriving DecidableEq

/-- The index NewMongoStore requests (lines 55–62): ExpireAfterSeconds is
`int32(time.Duration(maxAge) * time.Second)`, i.e. maxAge multiplied by
10^9 in wrapping int64 arithmetic and then truncated to int32. -/
def ensureTTLIndex (maxAge : Int) : IndexModel :=
  { key := "modified",
    expireAfterSeconds := int32cast (int64cast (maxAge * nanosPerSecond)),
    sparse := true, unique := true }

/-- A heap of sessions.Options cells, for aliasing facts: `next` is the next
fresh reference, `cells` maps references to cells. -/
structure OptionsHeap where
  next : Nat
  cells : Nat → Sessions.Options

/-- Allocate a fresh cell holding the given options. -/
def allocOptions (h : OptionsHeap) (o : Sessions.Options) : OptionsHeap × Nat :=
  ({ next := h.next + 1,
     cells := fun i => if i = h.next then o else h.cells i }, h.next)

/-- New's options assignment (lines 83–89) seen on the heap: allocate a
fresh cell holding a field-by-field copy of the store's options cell. -/
def newSessionOptions (h : OptionsHeap) (storeRef : Nat) : OptionsHeap × Nat :=
  allocOptions h (copyOptions (h.cells storeRef))

/-- Overwrite a heap cell (a caller mutating a session's options). -/
def heapSet (h : OptionsHeap) (r : Nat) (o : Sessions.Options) : OptionsHeap :=
  { h with cells := fun i => if i = r then o else h.cells i }

/-! Concrete fixtures for witnesses and counterexamples. -/

/-- Default store options used in the fixtures. -/
def cOptions : Sessions.Options :=
  { path := "/", maxAge := 60, domain := "", secure := false, httpOnly := false }

/-- A valid object id: 24 hex characters. -/
def validId : String := "0123456789abcdef01234567"

/-- A codec whose token-to-id decode always fails (a forged or corrupted
token), all other operations succeeding. -/
def cCodecBadDecode : Codec :=
  { encodeMulti := fun _ _ => .ok "enc", encodeId := fun _ _ => .ok "tok",
    decodeId := fun _ _ => .error (.decodeFail "bad token"),
    decodeData := fun _ _ => .ok [] }

/-- A codec that always succeeds. -/
def cCodecOK : Codec :=
  { encodeMulti := fun _ _ => .ok "enc", encodeId := fun _ _ => .ok "tok",
    decodeId := fun _ _ => .ok validId, decodeData := fun _ _ => .ok [] }

/-- A codec whose values encoding fails (e.g. a value the serializer
rejects), all other operations succeeding. -/
def cCodecEncFail : Codec :=
  { encodeMulti := fun _ _ => .error (.encodeFail "serialize"),
    encodeId := fun _ _ => .ok "tok",
    decodeId := fun _ _ => .ok validId, decodeData := fun _ _ => .ok [] }

/-- Store fixture with the failing token decoder. -/
def cStoreBadDecode : MongoStore := { codec := cCodecBadDecode, options := cOptions }

/-- Store fixture with the all-succeeding codec. -/
def cStoreOK : MongoStore := { codec := cCodecOK, options := cOptions }

/-- Store fixture with the failing values encoder. -/
def cStoreEncFail : MongoStore := { codec := cCodecEncFail, options := cOptions }

/-- An empty world: no documents, no injected failures, no token writes. -/
def cWorld : World :=
  { docs := [], findErr := none, upsertErr := none, removeErr := none,
    tokenWrites := [] }

/-- A request carrying a token for every name. -/
def cReqTok : Request := { getToken := fun _ => some "cookie" }

/-- A request carrying no token. -/
def cReqNone : Request := { getToken := fun _ => none }

/-- A session with a valid id, empty values, default options. -/
def cSessValid : Sessions.Session :=
  { name := "s", id := validId, values := [], options := cOptions, isNew := false }

/-- A session whose values bind "modified" to a non-time value. -/
def cSessBadModified : Sessions.Session :=
  { name := "s", id := validId, values := [("modified", Val.otherVal "oops")],
    options := cOptions, isNew := false }

/-- A session with a valid id and maxAge = -1 (termination request). -/
def cSessNeg : Sessions.Session :=
  { name := "s", id := validId, values := [],
    options := { cOptions with maxAge := -1 }, isNew := false }

/-- A never-saved session (empty id) with maxAge = -1. -/
def cSessNegEmpty : Sessions.Session :=
  { name := "s", id := "", values := [],
    options := { cOptions with maxAge := -1 }, isNew := false }

/-- A never-saved session (empty id) with nonnegative maxAge. -/
def cSessEmpty : Sessions.Session :=
  { name := "s", id := "", values := [], options := cOptions, isNew := true }

/-- An invalid-id session (empty id, default options). -/
def cSessInvalid : Sessions.Session :=
  { name := "s", id := "", values := [], options := cOptions, isNew := false }

/-- A heap with one allocated cell (the store's options) at reference 0. -/
def cHeap : OptionsHeap := { next := 1, cells := fun _ => cOptions }

/-! Helper lemmas shared by the claim theorems. -/

/-- Erasing an absent key is the identity. -/
theorem eraseKey_of_lookup_none {α : Type} (l : List (String × α)) (k : String)
    (h : lookupKey l k = none) : eraseKey l k = l := by
  induction l with
  | nil => rfl
  | cons p rest ih =>
      obtain ⟨a, b⟩ := p
      cases hk : (a == k) with
      | true => simp [lookupKey, hk] at h
      | false =>
          simp only [lookupKey, hk, Bool.false_eq_true, if_false] at h
          simp [eraseKey, hk, ih h]

/-- A successful upsert never touches the token writes. -/
theorem upsert_ok_tokenWrites (m : MongoStore) (w : World)
    (s : Sessions.Session) (now : Int) (w' : World)
    (h : upsert m w s now = .ok w') : w'.tokenWrites = w.tokenWrites := by
  unfold upsert at h
  split at h
  · exact absurd h (by simp)
  · cases hm : modifiedOf s.values now with
    | error e => rw [hm] at h; exact absurd h (by simp)
    | ok modified =>
        rw [hm] at h
        cases he : m.codec.encodeMulti s.name s.values with
        | error e => rw [he] at h; exact absurd h (by simp)
        | ok encoded =>
            rw [he] at h
            cases ho : objectIDFromHex s.id with
            | error e => rw [ho] at h; exact absurd h (by simp)
            | ok oID =>
                rw [ho] at h
                unfold upsertId at h
                cases hu : w.upsertErr with
                | some e => rw [hu] at h; exact absurd h (by simp)
                | none =>
                    rw [hu] at h
                    simp only [Except.ok.injEq] at h
                    rw [← h]

/-- The id of the minted session. -/
theorem mintId_id (s : Sessions.Session) (freshId : String) :
    (mintId s freshId).id = if s.id = "" then freshId else s.id := by
  unfold mintId; split <;> simp

/-! Claim theorems. -/

/-- C1 counterexample: on a request carrying a token whose decode into an
id fails, New returns a non-nil error — refuting the claim that every
lookup-step failure yields no error. -/
theorem New_decodeFail_error :
    (New cStoreBadDecode cWorld cReqTok "s").2 ≠ none := by
  decide

/-- C1 (amended): New always builds a session with isNew = true and empty
values; a missing token and any load failure (record not found, payload
decode failure, database error) are swallowed into that fresh session with
a nil error, but a failure to decode the token into an id is returned as
the error alongside the fresh session. -/
theorem New_lookup_failure_policy (m : MongoStore) (w : World) (r : Request)
    (name : String) :
    (freshSession m name).isNew = true ∧ (freshSession m name).values = [] ∧
    (r.getToken name = none → New m w r name = (freshSession m name, none)) ∧
    (∀ cook e, r.getToken name = some cook →
      m.codec.decodeId name cook = .error e →
      New m w r name = (freshSession m name, some e)) ∧
    (∀ cook sid e, r.getToken name = some cook →
      m.codec.decodeId name cook = .ok sid →
      load m w { freshSession m name with id := sid } = .error e →
      New m w r name = ({ freshSession m name with id := sid }, none)) := by
  refine ⟨rfl, rfl, ?_, ?_, ?_⟩
  · intro h; simp [New, h]
  · intro cook e h1 h2; simp [New, h1, h2]
  · intro cook sid e h1 h2 h3; simp [New, h1, h2, h3]

/-- C1 witness: with no token on the request, New returns the fresh session
and no error. -/
theorem New_lookup_failure_policy_w :
    cReqNone.getToken "s" = none ∧
    New cStoreBadDecode cWorld cReqNone "s" =
      (freshSession cStoreBadDecode "s", none) :=
  ⟨rfl, (New_lookup_failure_policy cStoreBadDecode cWorld cReqNone "s").2.2.1 rfl⟩

/-- C2: deleting a valid id that is absent from the collection succeeds
with no error and leaves the world unchanged (no injected database
failure). -/
theorem delete_absent_id_ok (w : World) (s : Sessions.Session)
    (hid : isValidObjectID s.id = true)
    (habs : lookupKey w.docs s.id = none)
    (hdb : w.removeErr = none) :
    delete w s = .ok w := by
  simp [delete, hid, objectIDFromHex, removeId, hdb,
    eraseKey_of_lookup_none _ _ habs]
  rw [← hdb]

/-- C2 witness: deleting a concrete valid id from the empty collection
succeeds. -/
theorem delete_absent_id_ok_w :
    isValidObjectID cSessValid.id = true ∧
    delete cWorld cSessValid = .ok cWorld :=
  ⟨by decide, delete_absent_id_ok cWorld cSessValid (by decide) rfl rfl⟩

/-- C3 (code bug evidence): with ensureTTL and maxAge = 1, the
ExpireAfterSeconds value handed to the index request is 1000000000 —
maxAge converted to nanoseconds and truncated to int32 — and not the
claimed maxAge = 1. -/
theorem ensureTTLIndex_expire_not_maxAge :
    (ensureTTLIndex 1).expireAfterSeconds = 1000000000 ∧
    (ensureTTLIndex 1).expireAfterSeconds ≠ 1 := by
  constructor <;> decide

/-- C4: upsert's handling of the "modified" value — a non-time value under
the "modified" key is a hard error before any persistence; with the key
absent the persisted record's modified field is the current time; with a
well-typed time value it is that value. -/
theorem upsert_modified_handling (m : MongoStore) (w : World)
    (s : Sessions.Session) (now : Int)
    (hid : isValidObjectID s.id = true) :
    (∀ v, lookupKey s.values "modified" = some v → v.isTime = false →
      upsert m w s now = .error .errInvalidModified) ∧
    (∀ enc, lookupKey s.values "modified" = none → w.upsertErr = none →
      m.codec.encodeMulti s.name s.values = .ok enc →
      upsert m w s now =
        .ok { w with docs := setKey w.docs s.id { data := enc, modified := now } }) ∧
    (∀ t enc, lookupKey s.values "modified" = some (.timeVal t) →
      w.upsertErr = none →
      m.codec.encodeMulti s.name s.values = .ok enc →
      upsert m w s now =
        .ok { w with docs := setKey w.docs s.id { data := enc, modified := t } }) := by
  refine ⟨?_, ?_, ?_⟩
  · intro v hv hbad
    cases v with
    | timeVal t => simp [Val.isTime] at hbad
    | otherVal str => simp [upsert, hid, modifiedOf, hv]
  · intro enc hnone hdb henc
    simp [upsert, hid, modifiedOf, hnone, henc, objectIDFromHex, upsertId, hdb]
  · intro t enc hsome hdb henc
    simp [upsert, hid, modifiedOf, hsome, henc, objectIDFromHex, upsertId, hdb]

/-- C4 witness: a session binding "modified" to a non-time value makes
upsert fail with the invalid-modified error. -/
theorem upsert_modified_handling_w :
    isValidObjectID cSessBadModified.id = true ∧
    upsert cStoreOK cWorld cSessBadModified 0 = .error .errInvalidModified :=
  ⟨by decide,
    (upsert_modified_handling cStoreOK cWorld cSessBadModified 0 (by decide)).1
      (Val.otherVal "oops") rfl rfl⟩

/-- C5: Save with maxAge < 0 deletes the backing record, fails the whole
save with the delete error if deletion fails, and otherwise writes an
empty token for the session's name and succeeds without upserting or
encoding anything. -/
theorem Save_maxAge_neg (m : MongoStore) (w : World) (s : Sessions.Session)
    (now : Int) (freshId : String) (h : s.options.maxAge < 0) :
    (∀ e, delete w s = .error e → Save m w s now freshId = (w, s, some e)) ∧
    (∀ w', delete w s = .ok w' →
      Save m w s now freshId = (setToken w' s.name "" s.options, s, none)) := by
  constructor
  · intro e hdel; simp [Save, h, hdel]
  · intro w' hdel; simp [Save, h, hdel]

/-- C5 witness: a valid-id session with maxAge = -1 on the empty world:
Save succeeds and the only write is an empty token. -/
theorem Save_maxAge_neg_w :
    cSessNeg.options.maxAge < 0 ∧
    Save cStoreOK cWorld cSessNeg 0 validId =
      (setToken cWorld cSessNeg.name "" cSessNeg.options, cSessNeg, none) :=
  ⟨by decide,
    (Save_maxAge_neg cStoreOK cWorld cSessNeg 0 validId (by decide)).2 cWorld
      (delete_absent_id_ok cWorld cSessNeg (by decide) rfl rfl)⟩

/-- C6: Save with maxAge ≥ 0 — a values-encode or upsert failure, or an
id-token-encode failure, fails the save and leaves the token writes
untouched; a token is written exactly when the upsert has succeeded and
the id encodes. -/
theorem Save_maxAge_nonneg_errors (m : MongoStore) (w : World)
    (s : Sessions.Session) (now : Int) (freshId : String)
    (h : 0 ≤ s.options.maxAge) :
    (∀ e, upsert m w (mintId s freshId) now = .error e →
      Save m w s now freshId = (w, mintId s freshId, some e)) ∧
    (∀ w' e, upsert m w (mintId s freshId) now = .ok w' →
      m.codec.encodeId (mintId s freshId).name (mintId s freshId).id = .error e →
      Save m w s now freshId = (w', mintId s freshId, some e) ∧
      w'.tokenWrites = w.tokenWrites) ∧
    (∀ w' enc, upsert m w (mintId s freshId) now = .ok w' →
      m.codec.encodeId (mintId s freshId).name (mintId s freshId).id = .ok enc →
      Save m w s now freshId =
        (setToken w' (mintId s freshId).name enc (mintId s freshId).options,
          mintId s freshId, none)) := by
  have hneg : ¬ s.options.maxAge < 0 := not_lt.mpr h
  refine ⟨?_, ?_, ?_⟩
  · intro e hup; simp [Save, hneg, hup]
  · intro w' e hup henc
    exact ⟨by simp [Save, hneg, hup, henc],
      upsert_ok_tokenWrites m w (mintId s freshId) now w' hup⟩
  · intro w' enc hup henc; simp [Save, hneg, hup, henc]

/-- C6 witness: with a codec whose values encoding fails, Save on a
valid-id session fails with that error and writes no token. -/
theorem Save_maxAge_nonneg_errors_w :
    (0 : Int) ≤ cSessValid.options.maxAge ∧
    Save cStoreEncFail cWorld cSessValid 0 validId =
      (cWorld, mintId cSessValid validId, some (.encodeFail "serialize")) :=
  ⟨by decide,
    (Save_maxAge_nonneg_errors cStoreEncFail cWorld cSessValid 0 validId
      (by decide)).1 (.encodeFail "serialize") rfl⟩

/-- C7: a session whose id fails object-id validation (the empty id
included) is rejected by load, upsert and delete with ErrInvalidId, the
world untouched — an invalid id never reaches the collection. -/
theorem invalid_id_rejected (m : MongoStore) (w : World)
    (s : Sessions.Session) (now : Int)
    (h : isValidObjectID s.id = false) :
    load m w s = .error .errInvalidId ∧
    upsert m w s now = .error .errInvalidId ∧
    delete w s = .error .errInvalidId := by
  refine ⟨?_, ?_, ?_⟩ <;> simp [load, upsert, delete, h]

/-- C7 witness: the empty id is invalid and all three operations reject it. -/
theorem invalid_id_rejected_w :
    isValidObjectID cSessInvalid.id = false ∧
    load cStoreOK cWorld cSessInvalid = .error .errInvalidId ∧
    upsert cStoreOK cWorld cSessInvalid 0 = .error .errInvalidId ∧
    delete cWorld cSessInvalid = .error .errInvalidId :=
  ⟨by decide,
    (invalid_id_rejected cStoreOK cWorld cSessInvalid 0 (by decide)).1,
    (invalid_id_rejected cStoreOK cWorld cSessInvalid 0 (by decide)).2.1,
    (invalid_id_rejected cStoreOK cWorld cSessInvalid 0 (by decide)).2.2⟩

/-- C8: with maxAge ≥ 0, the session id after Save is the fresh
store-generated id exactly when the id was empty on entry, and is the
unchanged entry id otherwise. -/
theorem Save_id_assignment (m : MongoStore) (w : World)
    (s : Sessions.Session) (now : Int) (freshId : String)
    (h : 0 ≤ s.options.maxAge) :
    (Save m w s now freshId).2.1.id = if s.id = "" then freshId else s.id := by
  have hneg : ¬ s.options.maxAge < 0 := not_lt.mpr h
  rw [← mintId_id s freshId]
  simp only [Save, if_neg hneg]
  split
  · rfl
  · split <;> rfl

/-- C8 witness: Save on an empty-id session assigns the fresh id. -/
theorem Save_id_assignment_w :
    (0 : Int) ≤ cSessEmpty.options.maxAge ∧
    (Save cStoreOK cWorld cSessEmpty 0 validId).2.1.id = validId :=
  ⟨by decide, by
    simpa [cSessEmpty] using
      Save_id_assignment cStoreOK cWorld cSessEmpty 0 validId (by decide)⟩

/-- C9: Save on a never-saved session (empty id) with maxAge < 0 returns
ErrInvalidId, not success, and the world — in particular the token
writes — is unchanged. -/
theorem Save_terminate_empty_id (m : MongoStore) (w : World)
    (s : Sessions.Session) (now : Int) (freshId : String)
    (h1 : s.options.maxAge < 0) (h2 : s.id = "") :
    Save m w s now freshId = (w, s, some .errInvalidId) := by
  have hv : isValidObjectID s.id = false := by rw [h2]; rfl
  have hdel : delete w s = .error .errInvalidId := by simp [delete, hv]
  simp [Save, h1, hdel]

/-- C9 witness: the concrete never-saved termination request fails with
ErrInvalidId and leaves the world as it was. -/
theorem Save_terminate_empty_id_w :
    cSessNegEmpty.options.maxAge < 0 ∧ cSessNegEmpty.id = "" ∧
    Save cStoreOK cWorld cSessNegEmpty 0 validId =
      (cWorld, cSessNegEmpty, some .errInvalidId) :=
  ⟨by decide, rfl,
    Save_terminate_empty_id cStoreOK cWorld cSessNegEmpty 0 validId
      (by decide) rfl⟩

/-- C10: New's options allocation yields a reference distinct from the
store's, holding a field-by-field copy of the store's options; any
mutation through the session's reference leaves the store's options cell
unchanged. -/
theorem New_options_no_alias (h : OptionsHeap) (storeRef : Nat)
    (hr : storeRef < h.next) :
    (newSessionOptions h storeRef).2 ≠ storeRef ∧
    (newSessionOptions h storeRef).1.cells (newSessionOptions h storeRef).2 =
      copyOptions (h.cells storeRef) ∧
    ∀ o', (heapSet (newSessionOptions h storeRef).1
      (newSessionOptions h storeRef).2 o').cells storeRef = h.cells storeRef := by
  have hne : storeRef ≠ h.next := Nat.ne_of_lt hr
  refine ⟨fun hc => hne hc.symm, ?_, ?_⟩
  · simp [newSessionOptions, allocOptions]
  · intro o'
    simp [newSessionOptions, allocOptions, heapSet, hne]

/-- C10 witness: on a one-cell heap the session's reference differs from
the store's. -/
theorem New_options_no_alias_w :
    0 < cHeap.next ∧ (newSessionOptions cHeap 0).2 ≠ 0 :=
  ⟨by decide, (New_options_no_alias cHeap 0 (by decide)).1⟩

end Mongostore
